import Mathlib

/-!
# Myo-Sim Bio-Deck: the live projection synchronisation core of `App.js`

A shallow embedding of the stateful logic of the React component `App`
(`frontend/src/App.js`): the four `useState` cells, the field-edit handlers,
`runSimulation`, the debounce effect on `formData` and the effect deriving
`currentRisk`, together with the browser resources they use (pending timers,
requests in flight, the console).

Modelling conventions.

* JavaScript numbers are idealised as rationals (`Num`); the component only
  stores, forwards and sign-tests them.  `NaN` and the infinities are not
  represented: range inputs and `select` options always carry numeric text.
* JavaScript strings are Lean strings, one `Char` per UTF-16 code unit.
* A thrown `TypeError` is the `none` of an `Option`.
* Time is a natural number of milliseconds.
* Of the render only the read `simulationData[yearsAhead]` (line 143, the same
  expression as line 47) is modelled.  What the chart library does with
  `data={simulationData}` (line 126) and how the cells are formatted is outside
  the model: a `some` result says that the component's own code did not throw.
  The statements about bodies that are no arrays of points are therefore made
  on `runSimulationResume`, the code of lines 29-36 itself.
-/

namespace MyoSim

/-! ## JavaScript values -/

/-- JavaScript numbers (finite doubles), idealised as rationals. -/
abbrev Num := ℚ

/-- JavaScript values that can occur in the component state: whatever
`response.json()` can produce (`JSON.parse` output), plus `undefined`. -/
inductive JSVal where
  | undefined
  | null
  | bool (b : Bool)
  | num (x : Num)
  | str (s : String)
  | arr (items : List JSVal)
  | obj (members : List (String × JSVal))

namespace JSVal

/-- ECMAScript `ToBoolean`: the test performed by `if (v)` and `v && ...`. -/
def truthy : JSVal → Bool
  | undefined => false
  | null => false
  | bool b => b
  | num x => decide (x ≠ 0)
  | str s => decide (s ≠ "")
  | arr _ => true
  | obj _ => true

/-- Own member `key` of a parsed JSON object (`undefined` when absent). -/
def lookup (members : List (String × JSVal)) (key : String) : JSVal :=
  (members.lookup key).getD undefined

/-- The expression `v[k]` for an integer `k`.  `none` is the `TypeError` raised
when `v` is `undefined` or `null`.  An array answers with its `k`-th item, an
object with its member named by the decimal text of `k`, a string with its
`k`-th code unit; everything else, and every miss, is `undefined`. -/
def getIndex (v : JSVal) (k : Int) : Option JSVal :=
  match v with
  | undefined => none
  | null => none
  | bool _ => some undefined
  | num _ => some undefined
  | str s =>
    if 0 ≤ k then
      match s.toList.get? k.toNat with
      | some c => some (str (String.singleton c))
      | none => some undefined
    else some undefined
  | arr items => if 0 ≤ k then some (items.getD k.toNat undefined) else some undefined
  | obj members => some (lookup members (toString k))

/-- The expression `v.name` for the property names the component reads
(`length`, `probability`).  `none` is the `TypeError` raised when `v` is
`undefined` or `null`. -/
def getMember (v : JSVal) (name : String) : Option JSVal :=
  match v with
  | undefined => none
  | null => none
  | bool _ => some undefined
  | num _ => some undefined
  | str s => if name = "length" then some (num (s.length : ℕ)) else some undefined
  | arr items => if name = "length" then some (num (items.length : ℕ)) else some undefined
  | obj members => some (lookup members name)

/-- The comparison `v > 0` (line 33 applies it to `data.length`).  It converts `v`
with `ToNumber`: `undefined` becomes `NaN`, `null` becomes `0`, booleans become
`0` or `1`.  For strings, arrays and objects the conversion goes through
`ToPrimitive` and the string-to-number grammar; that part of the language is
the parameter `coerce`, whose `none` is a `TypeError` raised by the conversion. -/
def gtZero (coerce : JSVal → Option Bool) : JSVal → Option Bool
  | undefined => some false
  | null => some false
  | bool b => some b
  | num x => some (decide (0 < x))
  | v => coerce v

end JSVal

/-! ## Data model -/

/-- One element of the array answered by `POST /simulate`. -/
structure ProjectionPoint where
  age : Int
  probability : Num

/-- The JavaScript object `{age, probability}` of a projection point. -/
def ProjectionPoint.toJS (p : ProjectionPoint) : JSVal :=
  .obj [("age", .num p.age), ("probability", .num p.probability)]

/-- The JavaScript array of a projection. -/
def projection (pts : List ProjectionPoint) : JSVal :=
  .arr (pts.map ProjectionPoint.toJS)

/-- The object held in `formData`: own properties by name (`none` when the
object has no such property). -/
abbrev ParameterSet := String → Option Num

/-- Object literal with the given properties. -/
def ParameterSet.ofList (l : List (String × Num)) : ParameterSet :=
  fun name => l.lookup name

/-- The object `{...p, [name]: v}`: every own property of `p` is copied, then
`name` is set to `v`. -/
def ParameterSet.set (p : ParameterSet) (name : String) (v : Num) : ParameterSet :=
  fun m => if m = name then some v else p m

/-- Initial value of `formData` (lines 6-10). -/
def defaultFormData : ParameterSet :=
  ParameterSet.ofList
    [("age", 45), ("sex", 1), ("cp", 2), ("trestbps", 130), ("chol", 200),
     ("fbs", 0), ("restecg", 0), ("thalach", 150), ("exang", 0),
     ("oldpeak", 1), ("slope", 1), ("ca", 0), ("thal", 3)]

/-- The four `useState` cells of `App` (lines 6-14). -/
structure State where
  formData : ParameterSet
  simulationData : JSVal
  currentRisk : JSVal
  yearsAhead : Int

/-- Values passed to `useState` on mount. -/
def State.initial : State where
  formData := defaultFormData
  simulationData := .arr []
  currentRisk := .num 0
  yearsAhead := 0

/-! ## Field edits (lines 17-19, 87-88) -/

/-- What a change event of a `Control` slider or of the `cp` select carries:
`e.target.name`, and the number `parseFloat(e.target.value)`. -/
structure ChangeEvent where
  name : String
  value : Num

/-- The new `formData` built by
`handleChange`: `{ ...formData, [e.target.name]: parseFloat(e.target.value) }`. -/
def handleChange (formData : ParameterSet) (e : ChangeEvent) : ParameterSet :=
  formData.set e.name e.value

/-- The new `formData` built by the "Male" button: `{...formData, sex: 1}`. -/
def clickMale (formData : ParameterSet) : ParameterSet :=
  formData.set "sex" 1

/-- The new `formData` built by the "Female" button: `{...formData, sex: 0}`. -/
def clickFemale (formData : ParameterSet) : ParameterSet :=
  formData.set "sex" 0

/-- User actions that call `setFormData`. -/
inductive Edit where
  | change (e : ChangeEvent)
  | male
  | female

/-- Argument handed to `setFormData` by an edit. -/
def Edit.apply (formData : ParameterSet) : Edit → ParameterSet
  | .change e => handleChange formData e
  | .male => clickMale formData
  | .female => clickFemale formData

/-! ## `runSimulation` (lines 22-37) -/

/-- How the two `await`s of `runSimulation` end. -/
inductive Response where
  /-- The promise of `fetch` rejects (connection refused, network error). -/
  | fetchRejected
  /-- The promise of `response.json()` rejects: the body is not JSON text. -/
  | jsonRejected
  /-- The body parses; `data` is the parsed value. -/
  | json (data : JSVal)

/-- First argument of the `console.error` call of the `catch` block (line 35). -/
def offlineMessage : String := "Backend offline?"

/-- Lines 29-36: `runSimulation` from the point where its awaits end.  The result
is the component state after the `setSimulationData` / `setCurrentRisk` calls
that were reached, and the messages written by `console.error`.  An exception
raised inside the `try` block leaves the state updates made before it in place
and runs the `catch` block. -/
def runSimulationResume (coerce : JSVal → Option Bool) (s : State) (r : Response) :
    State × List String :=
  match r with
  | .fetchRejected => (s, [offlineMessage])
  | .jsonRejected => (s, [offlineMessage])
  | .json data =>
    let s1 := { s with simulationData := data }
    match data.getMember "length" with
    | none => (s1, [offlineMessage])
    | some len =>
      match JSVal.gtZero coerce len with
      | none => (s1, [offlineMessage])
      | some false => (s1, [])
      | some true =>
        match (data.getIndex 0).bind (fun d => d.getMember "probability") with
        | none => (s1, [offlineMessage])
        | some p => ({ s1 with currentRisk := p }, [])

/-! ## The effect deriving `currentRisk` (lines 46-50) -/

/-- Body of the effect with dependencies `[yearsAhead, simulationData]`.  `none`
is the `TypeError` of `simulationData[yearsAhead]` on `null` or `undefined`
(the same expression is evaluated by the render at line 143); React then
unmounts the component. -/
def deriveRiskEffect (s : State) : Option State :=
  match s.simulationData.getIndex s.yearsAhead with
  | none => none
  | some v =>
    if v.truthy then (v.getMember "probability").map (fun p => { s with currentRisk := p })
    else some s

/-! ## The component in its environment -/

/-- A pending `setTimeout` callback `() => { runSimulation(); }`.  `body` is the
`formData` seen by the `runSimulation` closure of the render that scheduled it. -/
structure Timer where
  id : Nat
  due : Nat
  body : ParameterSet

/-- A `fetch` to `/simulate` whose response has not been handled yet; `body` is
the object given to `JSON.stringify`. -/
structure Request where
  id : Nat
  body : ParameterSet

/-- The mounted component and the browser resources it uses. -/
structure World where
  /-- The `useState` cells. -/
  ui : State
  /-- Current time in milliseconds. -/
  now : Nat
  /-- Timers scheduled and neither fired nor cleared. -/
  timers : List Timer
  /-- The handle `timer` kept by the cleanup of the latest run of the debounce effect. -/
  effectTimer : Nat
  /-- The handle the next `setTimeout` returns. -/
  nextTimer : Nat
  /-- Requests awaiting their response. -/
  inFlight : List Request
  /-- Bodies of all requests sent so far, oldest first. -/
  sent : List ParameterSet
  /-- Messages written by `console.error`, oldest first. -/
  console : List String

/-- Debounce delay of line 41. -/
def debounceDelay : Nat := 500

/-- The debounce effect with dependencies `[formData]` (lines 40-43), run after a
render with a new `formData`: the cleanup of the previous run clears its timer,
then a timer is scheduled `debounceDelay` ms ahead. -/
def debounceEffect (w : World) (formData : ParameterSet) : World :=
  { w with
    timers := w.timers.filter (fun t => t.id ≠ w.effectTimer) ++
      [{ id := w.nextTimer, due := w.now + debounceDelay, body := formData }]
    effectTimer := w.nextTimer
    nextTimer := w.nextTimer + 1 }

/-- A timer fires: `runSimulation` runs up to `await fetch(...)`, which sends the
request (lines 24-28). -/
def fire (w : World) (t : Timer) : World :=
  { w with
    sent := w.sent ++ [t.body]
    inFlight := w.inFlight ++ [{ id := w.sent.length, body := t.body }] }

/-- The component just after mounting: initial state, both effects run once (the
derivation effect finds `[][0]` undefined and does nothing). -/
def World.initial : World where
  ui := State.initial
  now := 0
  timers := [{ id := 0, due := debounceDelay, body := defaultFormData }]
  effectTimer := 0
  nextTimer := 1
  inFlight := []
  sent := []
  console := []

/-- What can happen to the mounted component. -/
inductive Event where
  /-- A slider, the select or a sex button calls `setFormData`. -/
  | edit (e : Edit)
  /-- The "Years Ahead" range input changes; `k` is `parseInt(e.target.value)`. -/
  | scrub (k : Int)
  /-- `dt` milliseconds pass. -/
  | wait (dt : Nat)
  /-- The awaits of the `runSimulation` call that sent request `id` end with `r`. -/
  | response (id : Nat) (r : Response)

/-- The `onChange` handler of the "Years Ahead" range input (lines 105-109),
`setYearsAhead(parseInt(e.target.value))`, with `k` the parsed integer, followed
by the re-render.  Setting the cell to the value it holds changes nothing and
no effect runs; otherwise the derivation effect runs (dependency `yearsAhead`
changed).  `none`: the effect threw and the component is unmounted. -/
def onYearsAheadChange (s : State) (k : Int) : Option State :=
  if k = s.yearsAhead then some s
  else deriveRiskEffect { s with yearsAhead := k }

/-- The value the "Years Ahead" input holds after it has been handed `k`.  The
element is `type="range"` with `min="0"` and `max="20"` (line 106) and the
default step 1: a range input replaces a value below its minimum by the minimum
and a value above its maximum by the maximum, and keeps an integer in between. -/
def yearsAheadInput (k : Int) : Int :=
  if k < 0 then 0 else if 20 < k then 20 else k

/-- The awaits of a `runSimulation` call end with `r`: `runSimulationResume`, then
the re-render.  When `setSimulationData` was called the derivation effect runs
(a parsed array or object is a fresh value; for a primitive equal to the one
already held the effect would change nothing that line 33 has not set).
`none`: `simulationData[yearsAhead]` threw and the component is unmounted.  The
render of `<AreaChart data={simulationData}>` belongs to the chart library and
is not modelled; for an array of points it draws the chart. -/
def onResponse (coerce : JSVal → Option Bool) (s : State) (r : Response) :
    Option (State × List String) :=
  let out := runSimulationResume coerce s r
  match r with
  | .json _ => (deriveRiskEffect out.1).map (fun s1 => (s1, out.2))
  | _ => some out

/-- One event, followed by the re-render and the effects whose dependencies
changed.  `none`: the component crashed (uncaught `TypeError`) and is unmounted.

* `edit`: `setFormData` always receives a fresh object, so the debounce effect
  runs again; the derivation effect does not (its dependencies are unchanged).
* `scrub`: `onYearsAheadChange`.
* `wait`: the timers due by the new time fire, oldest first.
* `response`: `onResponse` for a request in flight, which then is no longer in
  flight.  A response for a request that is not in flight cannot occur and is
  ignored. -/
def step (coerce : JSVal → Option Bool) (w : World) : Event → Option World
  | .edit e =>
    let formData := e.apply w.ui.formData
    some (debounceEffect { w with ui := { w.ui with formData := formData } } formData)
  | .scrub k => (onYearsAheadChange w.ui k).map (fun s => { w with ui := s })
  | .wait dt =>
    let due := w.timers.filter (fun t => t.due ≤ w.now + dt)
    some (due.foldl fire
      { w with now := w.now + dt, timers := w.timers.filter (fun t => ¬ t.due ≤ w.now + dt) })
  | .response id r =>
    if w.inFlight.any (fun q => q.id = id) then
      (onResponse coerce w.ui r).map (fun out =>
        { w with
          ui := out.1
          inFlight := w.inFlight.filter (fun q => q.id ≠ id)
          console := w.console ++ out.2 })
    else some w

/-- The scrub-offset setter (lines 105-109): `k` is handed to the range input,
whose change event carries the value the input then holds to the `onChange`
handler. -/
def setOffset (coerce : JSVal → Option Bool) (w : World) (k : Int) : Option World :=
  step coerce w (.scrub (yearsAheadInput k))

/-- A sequence of events, stopping at a crash. -/
def run (coerce : JSVal → Option Bool) (w : World) : List Event → Option World
  | [] => some w
  | e :: es => (step coerce w e).bind (fun w1 => run coerce w1 es)

/-- States the mounted component can be in. -/
def Reachable (coerce : JSVal → Option Bool) (w : World) : Prop :=
  ∃ es : List Event, run coerce World.initial es = some w

/-- The derivation effect has nothing left to do: the state is what the effect
makes of it. -/
def Settled (s : State) : Prop := deriveRiskEffect s = some s

/-- Every pending timer is the one the debounce cleanup holds, and there is at
most one. -/
def TimersOwned (w : World) : Prop :=
  w.timers.length ≤ 1 ∧ ∀ t ∈ w.timers, t.id = w.effectTimer

/-- Request `id` awaits its response. -/
def InFlight (w : World) (id : Nat) : Prop :=
  w.inFlight.any (fun q => q.id = id) = true

/-- What the user sees of the synchronisation state: the cached projection, the
scrub offset and the displayed risk. -/
def World.display (w : World) : JSVal × Int × JSVal :=
  (w.ui.simulationData, w.ui.yearsAhead, w.ui.currentRisk)

/-! ## Sample data for the scenarios -/

/-- Projection answered to the request for `P1` in the superseding scenario. -/
def firstAnswer : List ProjectionPoint := [⟨50, 0.3⟩]

/-- Projection answered to the request for `P2` in the superseding scenario. -/
def secondAnswer : List ProjectionPoint := [⟨55, 0.6⟩]

/-- A projection of three points (stale horizon). -/
def shortAnswer : List ProjectionPoint := [⟨45, 0.1⟩, ⟨46, 0.2⟩, ⟨47, 0.3⟩]

/-- A projection of 21 points, ages 45 to 65. -/
def fullAnswer : List ProjectionPoint :=
  (List.range 21).map (fun i => ⟨45 + i, (i : ℚ) / 40⟩)

/-- A parsed body that is an error object instead of an array of points. -/
def errorBody : JSVal := .obj [("detail", .str "Not Found")]

/-- The component 500 ms after mounting: the request for the default parameters
is in flight. -/
def World.awaiting : World where
  ui := State.initial
  now := 500
  timers := []
  effectTimer := 0
  nextTimer := 1
  inFlight := [{ id := 0, body := defaultFormData }]
  sent := [defaultFormData]
  console := []

/-- The component once `fullAnswer` has answered the first request. -/
def World.showingFull : World where
  ui :=
    { State.initial with
      simulationData := projection fullAnswer
      currentRisk := .num (((0 : ℕ) : ℚ) / 40) }
  now := 500
  timers := []
  effectTimer := 0
  nextTimer := 1
  inFlight := []
  sent := [defaultFormData]
  console := []

/-- The component showing `shortAnswer` with the scrub offset at 2, nothing in
flight. -/
def World.showingShort : World where
  ui :=
    { State.initial with
      simulationData := projection shortAnswer
      currentRisk := .num 0.3
      yearsAhead := 2 }
  now := 500
  timers := []
  effectTimer := 0
  nextTimer := 1
  inFlight := []
  sent := [defaultFormData]
  console := []

/-- The component showing `fullAnswer` with the scrub offset at 7. -/
def World.scrubbedFull : World :=
  { World.showingFull with
    ui := { World.showingFull.ui with yearsAhead := 7, currentRisk := .num (((7 : ℕ) : ℚ) / 40) } }

/-- The same display as `World.scrubbedFull`, 100 ms later. -/
def World.scrubbedFullLater : World :=
  { World.scrubbedFull with now := 600 }

/-- Parameters `P1` of the superseding scenario: the default profile with age 50. -/
def paramsP1 : ParameterSet := handleChange defaultFormData ⟨"age", 50⟩

/-- Parameters `P2` of the superseding scenario: `P1` with age 55. -/
def paramsP2 : ParameterSet := handleChange paramsP1 ⟨"age", 55⟩

/-- The superseding scenario up to the point where the request for `P1` (id 0)
and the request for `P2` (id 1) have both been sent and neither is answered. -/
def supersedingEvents : List Event :=
  [.edit (.change ⟨"age", 50⟩), .wait 500, .edit (.change ⟨"age", 55⟩), .wait 500]

/-- The component after `supersedingEvents`. -/
def World.bothInFlight : World where
  ui := { State.initial with formData := paramsP2 }
  now := 1000
  timers := []
  effectTimer := 2
  nextTimer := 3
  inFlight := [{ id := 0, body := paramsP1 }, { id := 1, body := paramsP2 }]
  sent := [paramsP1, paramsP2]
  console := []

/-- A burst of edits: a first edit, then further edits each preceded by the time
that passed since the previous one. -/
def burst (e : Edit) (rest : List (Nat × Edit)) : List Event :=
  .edit e :: rest.flatMap (fun ge => [.wait ge.1, .edit ge.2])

/-- The parameters after a burst of edits. -/
def burstResult (formData : ParameterSet) (e : Edit) (rest : List (Nat × Edit)) :
    ParameterSet :=
  (rest.map Prod.snd).foldl Edit.apply (e.apply formData)

/-- The latest edit produced `f` and its debounce timer is the one pending timer. -/
def Armed (w : World) (f : ParameterSet) : Prop :=
  w.ui.formData = f ∧
    w.timers = [{ id := w.effectTimer, due := w.now + debounceDelay, body := f }]

/-! ## Lemmas on the derivation effect -/

theorem getMember_truthy_isSome (v : JSVal) (name : String) (h : v.truthy = true) :
    ∃ p, v.getMember name = some p := by
  cases v <;> simp [JSVal.truthy] at h <;> simp [JSVal.getMember]
  all_goals split <;> simp

theorem deriveRiskEffect_frame (s t : State) (h : deriveRiskEffect s = some t) :
    t.formData = s.formData ∧ t.simulationData = s.simulationData ∧
      t.yearsAhead = s.yearsAhead := by
  unfold deriveRiskEffect at h
  split at h
  · simp at h
  · split at h
    · simp only [Option.map_eq_some'] at h
      obtain ⟨p, -, rfl⟩ := h
      simp
    · simp only [Option.some.injEq] at h
      subst h
      simp

theorem deriveRiskEffect_idem (s t : State) (h : deriveRiskEffect s = some t) :
    deriveRiskEffect t = some t := by
  unfold deriveRiskEffect at h
  split at h
  · simp at h
  · rename_i v hv
    split at h
    · rename_i ht
      simp only [Option.map_eq_some'] at h
      obtain ⟨p, hp, rfl⟩ := h
      simp [deriveRiskEffect, hv, ht, hp]
    · rename_i ht
      simp only [Option.some.injEq] at h
      subst h
      simp [deriveRiskEffect, hv, ht]

theorem deriveRiskEffect_formData (s : State) (f : ParameterSet) :
    deriveRiskEffect { s with formData := f } =
      (deriveRiskEffect s).map (fun t => { t with formData := f }) := by
  unfold deriveRiskEffect
  cases hv : s.simulationData.getIndex s.yearsAhead with
  | none => simp
  | some v =>
    by_cases ht : v.truthy = true
    · cases hp : v.getMember "probability" <;> simp [ht, hp]
    · simp [ht]

theorem settled_formData (s : State) (f : ParameterSet) (h : Settled s) :
    Settled { s with formData := f } := by
  unfold Settled at *
  rw [deriveRiskEffect_formData, h]
  rfl

theorem getIndex_projection_valid (pts : List ProjectionPoint) (k : Int) (p : ProjectionPoint)
    (h0 : 0 ≤ k) (hp : pts[k.toNat]? = some p) :
    (projection pts).getIndex k = some p.toJS := by
  simp [projection, JSVal.getIndex, h0, List.getD, hp]

theorem getIndex_projection_invalid (pts : List ProjectionPoint) (k : Int)
    (h : k < 0 ∨ (pts.length : Int) ≤ k) :
    (projection pts).getIndex k = some .undefined := by
  unfold projection JSVal.getIndex
  simp only
  split
  · rename_i h0
    have hlen : pts.length ≤ k.toNat := by omega
    simp [List.getD, List.getElem?_eq_none, hlen]
  · rfl

theorem deriveRiskEffect_valid (s : State) (pts : List ProjectionPoint) (p : ProjectionPoint)
    (hc : s.simulationData = projection pts) (h0 : 0 ≤ s.yearsAhead)
    (hp : pts[s.yearsAhead.toNat]? = some p) :
    deriveRiskEffect s = some { s with currentRisk := .num p.probability } := by
  simp [deriveRiskEffect, hc, getIndex_projection_valid pts _ p h0 hp, ProjectionPoint.toJS,
    JSVal.truthy, JSVal.getMember, JSVal.lookup, List.lookup]

theorem deriveRiskEffect_invalid (s : State) (pts : List ProjectionPoint)
    (hc : s.simulationData = projection pts)
    (h : s.yearsAhead < 0 ∨ (pts.length : Int) ≤ s.yearsAhead) :
    deriveRiskEffect s = some s := by
  simp [deriveRiskEffect, hc, getIndex_projection_invalid pts _ h, JSVal.truthy]

/-! ## Invariants of the mounted component -/

theorem foldl_fire_frame (ts : List Timer) (w : World) :
    (ts.foldl fire w).ui = w.ui ∧ (ts.foldl fire w).now = w.now ∧
      (ts.foldl fire w).timers = w.timers ∧ (ts.foldl fire w).effectTimer = w.effectTimer ∧
      (ts.foldl fire w).nextTimer = w.nextTimer ∧ (ts.foldl fire w).console = w.console ∧
      (ts.foldl fire w).sent = w.sent ++ ts.map (fun t => t.body) := by
  induction ts generalizing w with
  | nil => simp
  | cons t ts ih =>
    obtain ⟨h1, h2, h3, h4, h5, h6, h7⟩ := ih (fire w t)
    simp only [List.foldl_cons, h1, h2, h3, h4, h5, h6, h7]
    simp [fire]

theorem settled_initial : Settled State.initial := by
  simp [Settled, deriveRiskEffect, State.initial, JSVal.getIndex, JSVal.truthy]

theorem onYearsAheadChange_settled (s t : State) (k : Int) (hs : Settled s)
    (h : onYearsAheadChange s k = some t) : Settled t := by
  unfold onYearsAheadChange at h
  split at h
  · simp only [Option.some.injEq] at h
    subst h
    exact hs
  · exact deriveRiskEffect_idem _ _ h

theorem onResponse_settled (coerce : JSVal → Option Bool) (s : State) (r : Response)
    (out : State × List String) (hs : Settled s) (h : onResponse coerce s r = some out) :
    Settled out.1 := by
  cases r with
  | fetchRejected =>
    simp only [onResponse, runSimulationResume, Option.some.injEq] at h
    subst h
    exact hs
  | jsonRejected =>
    simp only [onResponse, runSimulationResume, Option.some.injEq] at h
    subst h
    exact hs
  | json data =>
    simp only [onResponse, Option.map_eq_some'] at h
    obtain ⟨t, ht, rfl⟩ := h
    exact deriveRiskEffect_idem _ _ ht

theorem step_settled (coerce : JSVal → Option Bool) (w w1 : World) (e : Event)
    (hs : Settled w.ui) (h : step coerce w e = some w1) : Settled w1.ui := by
  cases e with
  | edit ed =>
    simp only [step, Option.some.injEq] at h
    subst h
    exact settled_formData _ _ hs
  | scrub k =>
    simp only [step, Option.map_eq_some'] at h
    obtain ⟨t, ht, rfl⟩ := h
    exact onYearsAheadChange_settled _ _ _ hs ht
  | wait dt =>
    simp only [step, Option.some.injEq] at h
    subst h
    rw [(foldl_fire_frame _ _).1]
    exact hs
  | response id r =>
    simp only [step] at h
    split at h
    · simp only [Option.map_eq_some'] at h
      obtain ⟨out, ho, rfl⟩ := h
      exact onResponse_settled coerce _ _ _ hs ho
    · simp only [Option.some.injEq] at h
      subst h
      exact hs

theorem timersOwned_initial : TimersOwned World.initial := by
  simp [TimersOwned, World.initial]

theorem step_timersOwned (coerce : JSVal → Option Bool) (w w1 : World) (e : Event)
    (hw : TimersOwned w) (h : step coerce w e = some w1) : TimersOwned w1 := by
  obtain ⟨hlen, hid⟩ := hw
  cases e with
  | edit ed =>
    simp only [step, Option.some.injEq] at h
    subst h
    have hnil : w.timers.filter (fun t => decide (t.id ≠ w.effectTimer)) = [] := by
      rw [List.filter_eq_nil_iff]
      intro t ht
      simp [hid t ht]
    simp only [TimersOwned, debounceEffect]
    rw [hnil]
    simp
  | scrub k =>
    simp only [step, Option.map_eq_some'] at h
    obtain ⟨t, -, rfl⟩ := h
    exact ⟨hlen, hid⟩
  | wait dt =>
    simp only [step, Option.some.injEq] at h
    subst h
    obtain ⟨-, -, h3, h4, -⟩ := foldl_fire_frame
      (w.timers.filter (fun t => decide (t.due ≤ w.now + dt)))
      { w with now := w.now + dt,
               timers := w.timers.filter (fun t => decide (¬ t.due ≤ w.now + dt)) }
    refine ⟨?_, ?_⟩
    · rw [h3]
      exact le_trans (List.length_filter_le _ _) hlen
    · intro t ht
      rw [h3] at ht
      rw [h4]
      exact hid t (List.mem_of_mem_filter ht)
  | response id r =>
    simp only [step] at h
    split at h
    · simp only [Option.map_eq_some'] at h
      obtain ⟨out, -, rfl⟩ := h
      exact ⟨hlen, hid⟩
    · simp only [Option.some.injEq] at h
      subst h
      exact ⟨hlen, hid⟩

theorem run_append (coerce : JSVal → Option Bool) (w : World) (es fs : List Event) :
    run coerce w (es ++ fs) = (run coerce w es).bind (fun w1 => run coerce w1 fs) := by
  induction es generalizing w with
  | nil => simp [run]
  | cons e es ih =>
    simp only [List.cons_append, run]
    cases step coerce w e with
    | none => simp
    | some w1 => simp [ih]

theorem run_invariant (coerce : JSVal → Option Bool) (w w1 : World) (es : List Event)
    (hw : Settled w.ui ∧ TimersOwned w) (h : run coerce w es = some w1) :
    Settled w1.ui ∧ TimersOwned w1 := by
  induction es generalizing w with
  | nil =>
    simp only [run, Option.some.injEq] at h
    subst h
    exact hw
  | cons e es ih =>
    simp only [run, Option.bind_eq_some] at h
    obtain ⟨w2, h2, hrest⟩ := h
    exact ih w2 ⟨step_settled coerce w w2 e hw.1 h2, step_timersOwned coerce w w2 e hw.2 h2⟩ hrest

theorem reachable_invariant (coerce : JSVal → Option Bool) (w : World)
    (h : Reachable coerce w) : Settled w.ui ∧ TimersOwned w := by
  obtain ⟨es, hes⟩ := h
  exact run_invariant coerce World.initial w es ⟨settled_initial, timersOwned_initial⟩ hes

theorem reachable_awaiting (coerce : JSVal → Option Bool) : Reachable coerce World.awaiting :=
  ⟨[.wait 500], rfl⟩

theorem reachable_showingFull (coerce : JSVal → Option Bool) :
    Reachable coerce World.showingFull :=
  ⟨[.wait 500, .response 0 (.json (projection fullAnswer))], rfl⟩

/-! ## Lemmas on responses -/

theorem runSimulationResume_json_frame (coerce : JSVal → Option Bool) (s : State)
    (data : JSVal) :
    (runSimulationResume coerce s (.json data)).1.simulationData = data ∧
      (runSimulationResume coerce s (.json data)).1.yearsAhead = s.yearsAhead ∧
      (runSimulationResume coerce s (.json data)).1.formData = s.formData := by
  simp only [runSimulationResume]
  repeat' split
  all_goals simp

theorem getIndex_isSome (v : JSVal) (h1 : v ≠ .null) (h2 : v ≠ .undefined) (k : Int) :
    ∃ x, v.getIndex k = some x := by
  cases v <;> simp [JSVal.getIndex] at h1 h2 ⊢
  all_goals repeat' split
  all_goals simp

theorem getIndex_nullish (v : JSVal) (j : Int) (h : v.getIndex j ≠ none) :
    v ≠ .null ∧ v ≠ .undefined := by
  cases v <;> simp [JSVal.getIndex] at h ⊢

theorem deriveRiskEffect_isSome (s : State) (h1 : s.simulationData ≠ .null)
    (h2 : s.simulationData ≠ .undefined) : ∃ t, deriveRiskEffect s = some t := by
  obtain ⟨v, hv⟩ := getIndex_isSome s.simulationData h1 h2 s.yearsAhead
  unfold deriveRiskEffect
  simp only [hv]
  by_cases ht : v.truthy = true
  · obtain ⟨p, hp⟩ := getMember_truthy_isSome v "probability" ht
    simp [ht, hp]
  · simp [ht]

theorem settled_nullish (s : State) (h : Settled s) :
    s.simulationData ≠ .null ∧ s.simulationData ≠ .undefined := by
  apply getIndex_nullish s.simulationData s.yearsAhead
  intro hn
  simp [Settled, deriveRiskEffect, hn] at h

theorem step_scrub_stores (coerce : JSVal → Option Bool) (w : World) (j : Int)
    (hw : Reachable coerce w) :
    ∃ w1, step coerce w (.scrub j) = some w1 ∧ w1.ui.yearsAhead = j := by
  obtain ⟨hs, -⟩ := reachable_invariant coerce w hw
  by_cases hj : j = w.ui.yearsAhead
  · exact ⟨w, by simp [step, onYearsAheadChange, hj], hj.symm⟩
  · obtain ⟨h1, h2⟩ := settled_nullish w.ui hs
    obtain ⟨t, ht⟩ := deriveRiskEffect_isSome { w.ui with yearsAhead := j } h1 h2
    obtain ⟨-, -, hy⟩ := deriveRiskEffect_frame _ _ ht
    exact ⟨{ w with ui := t }, by simp [step, onYearsAheadChange, hj, ht], hy⟩

theorem onResponse_json (coerce : JSVal → Option Bool) (s : State) (data : JSVal)
    (h1 : data ≠ .null) (h2 : data ≠ .undefined) :
    ∃ out, onResponse coerce s (.json data) = some out ∧ out.1.simulationData = data ∧
      out.1.yearsAhead = s.yearsAhead := by
  obtain ⟨hc, hk, -⟩ := runSimulationResume_json_frame coerce s data
  obtain ⟨t, ht⟩ := deriveRiskEffect_isSome (runSimulationResume coerce s (.json data)).1
    (by rw [hc]; exact h1) (by rw [hc]; exact h2)
  obtain ⟨-, hc2, hk2⟩ := deriveRiskEffect_frame _ _ ht
  exact ⟨(t, (runSimulationResume coerce s (.json data)).2), by simp [onResponse, ht],
    by simp [hc2, hc], by simp [hk2, hk]⟩

theorem step_response_json (coerce : JSVal → Option Bool) (w : World) (id : Nat)
    (data : JSVal) (hid : InFlight w id) (h1 : data ≠ .null) (h2 : data ≠ .undefined) :
    ∃ w1, step coerce w (.response id (.json data)) = some w1 ∧
      w1.ui.simulationData = data ∧ w1.ui.yearsAhead = w.ui.yearsAhead ∧
      w1.inFlight = w.inFlight.filter (fun q => q.id ≠ id) := by
  obtain ⟨out, ho, hc, hk⟩ := onResponse_json coerce w.ui data h1 h2
  unfold InFlight at hid
  refine ⟨{ w with
      ui := out.1
      inFlight := w.inFlight.filter (fun q => q.id ≠ id)
      console := w.console ++ out.2 }, ?_, hc, hk, rfl⟩
  simp only [step, hid, if_true, ho, Option.map_some']

theorem projection_ne_nullish (pts : List ProjectionPoint) :
    projection pts ≠ .null ∧ projection pts ≠ .undefined := by
  simp [projection]

theorem step_response_rejected (coerce : JSVal → Option Bool) (w : World) (id : Nat)
    (r : Response) (hr : r = .fetchRejected ∨ r = .jsonRejected) (hid : InFlight w id) :
    step coerce w (.response id r) =
      some { w with
        inFlight := w.inFlight.filter (fun q => q.id ≠ id)
        console := w.console ++ [offlineMessage] } := by
  unfold InFlight at hid
  rcases hr with rfl | rfl <;>
    simp only [step, hid, if_true, onResponse, runSimulationResume, Option.map_some']

/-! ## C6: field edits -/

/-- C6: the object built by `handleChange` for field `n` and value `v` has `n`
equal to `v`, every other field as in `p`, and no field of `p` missing; the two
sex buttons do the same for the field `sex` with the values 1 and 0. -/
theorem setField_frame (p : ParameterSet) (n : String) (v : Num) :
    (handleChange p ⟨n, v⟩ n = some v ∧
      (∀ m, m ≠ n → handleChange p ⟨n, v⟩ m = p m) ∧
      (∀ m, p m ≠ none → handleChange p ⟨n, v⟩ m ≠ none)) ∧
    (clickMale p "sex" = some 1 ∧
      (∀ m, m ≠ "sex" → clickMale p m = p m) ∧
      (∀ m, p m ≠ none → clickMale p m ≠ none)) ∧
    (clickFemale p "sex" = some 0 ∧
      (∀ m, m ≠ "sex" → clickFemale p m = p m) ∧
      (∀ m, p m ≠ none → clickFemale p m ≠ none)) := by
  have key : ∀ (q : ParameterSet) (a : String) (x : Num),
      q.set a x a = some x ∧ (∀ m, m ≠ a → q.set a x m = q m) ∧
        (∀ m, q m ≠ none → q.set a x m ≠ none) := by
    intro q a x
    refine ⟨by simp [ParameterSet.set], ?_, ?_⟩
    · intro m hm
      simp [ParameterSet.set, hm]
    · intro m hm
      by_cases h : m = a
      · simp [ParameterSet.set, h]
      · simpa [ParameterSet.set, h] using hm
  exact ⟨key p n v, key p "sex" 1, key p "sex" 0⟩

/-! ## C3: a failed request leaves the display data intact -/

/-- C3: when `fetch` rejects or the body fails to parse, `runSimulation` leaves
the component state as it was; in particular the event never crashes the
component and `simulationData` and `currentRisk` keep their values. -/
theorem failure_keeps_display (coerce : JSVal → Option Bool) (s : State) (w : World)
    (id : Nat) :
    (runSimulationResume coerce s .fetchRejected).1 = s ∧
    (runSimulationResume coerce s .jsonRejected).1 = s ∧
    (∃ w1, step coerce w (.response id .fetchRejected) = some w1 ∧
      w1.ui.simulationData = w.ui.simulationData ∧ w1.ui.currentRisk = w.ui.currentRisk) ∧
    (∃ w1, step coerce w (.response id .jsonRejected) = some w1 ∧
      w1.ui.simulationData = w.ui.simulationData ∧ w1.ui.currentRisk = w.ui.currentRisk) := by
  refine ⟨rfl, rfl, ?_, ?_⟩
  · by_cases hid : InFlight w id
    · exact ⟨_, step_response_rejected coerce w id _ (Or.inl rfl) hid, rfl, rfl⟩
    · unfold InFlight at hid
      exact ⟨w, by simp only [step, hid, Bool.false_eq_true, if_false], rfl, rfl⟩
  · by_cases hid : InFlight w id
    · exact ⟨_, step_response_rejected coerce w id _ (Or.inr rfl) hid, rfl, rfl⟩
    · unfold InFlight at hid
      exact ⟨w, by simp only [step, hid, Bool.false_eq_true, if_false], rfl, rfl⟩

/-! ## C10: what a failure leaves behind -/

/-- C10, as stated, fails: 500 ms after mounting the request is in flight and the
component state is the initial one; after the request fails (either way) the
component state is still the initial one, so nothing distinguishes the state
after the failure from the state before it. -/
theorem failure_state_indistinguishable :
    (∀ coerce, (run coerce World.initial [.wait 500]).map World.ui = some State.initial) ∧
    (∀ coerce, (run coerce World.initial [.wait 500, .response 0 .fetchRejected]).map World.ui
      = some State.initial) ∧
    (∀ coerce, (run coerce World.initial [.wait 500, .response 0 .jsonRejected]).map World.ui
      = some State.initial) :=
  ⟨fun _ => rfl, fun _ => rfl, fun _ => rfl⟩

/-- C10, amended: when a request in flight fails, the only trace is one
`console.error` message ("Backend offline?"); the four state cells are exactly
what they were before the failure. -/
theorem failure_only_logged (coerce : JSVal → Option Bool) (w : World) (id : Nat)
    (r : Response) (hr : r = .fetchRejected ∨ r = .jsonRejected) (hid : InFlight w id) :
    ∃ w1, step coerce w (.response id r) = some w1 ∧ w1.ui = w.ui ∧
      w1.console = w.console ++ ["Backend offline?"] :=
  ⟨_, step_response_rejected coerce w id r hr hid, rfl, rfl⟩

/-- C10, amended, at the request in flight 500 ms after mounting. -/
theorem failure_only_logged_witness :
    InFlight World.awaiting 0 ∧
    ∀ coerce, ∃ w1, step coerce World.awaiting (.response 0 .fetchRejected) = some w1 ∧
      w1.ui = World.awaiting.ui ∧ w1.console = World.awaiting.console ++ ["Backend offline?"] :=
  ⟨rfl, fun coerce =>
    failure_only_logged coerce World.awaiting 0 .fetchRejected (Or.inl rfl) rfl⟩

/-! ## C7: the scrub-offset setter -/

/-- C7: in every state the component can be in, every integer `k` handed to the
scrub-offset setter is accepted, and the resulting `yearsAhead` lies in [0, 20]:
it is `k` when `0 ≤ k ≤ 20`, 0 when `k < 0` and 20 when `k > 20`. -/
theorem setOffset_clamps (coerce : JSVal → Option Bool) (w : World) (k : Int)
    (hw : Reachable coerce w) :
    ∃ w1, setOffset coerce w k = some w1 ∧
      0 ≤ w1.ui.yearsAhead ∧ w1.ui.yearsAhead ≤ 20 ∧
      (0 ≤ k ∧ k ≤ 20 → w1.ui.yearsAhead = k) ∧
      (k < 0 → w1.ui.yearsAhead = 0) ∧
      (20 < k → w1.ui.yearsAhead = 20) := by
  obtain ⟨w1, hw1, hy⟩ := step_scrub_stores coerce w (yearsAheadInput k) hw
  refine ⟨w1, hw1, ?_, ?_, ?_, ?_, ?_⟩
  · rw [hy]
    unfold yearsAheadInput
    split_ifs <;> omega
  · rw [hy]
    unfold yearsAheadInput
    split_ifs <;> omega
  · intro h
    rw [hy]
    unfold yearsAheadInput
    split_ifs <;> omega
  · intro h
    rw [hy]
    simp [yearsAheadInput, h]
  · intro h
    rw [hy]
    have h0 : ¬ k < 0 := by omega
    simp [yearsAheadInput, h, h0]

/-- C7 at the component showing a 21-point projection, handed 25: the offset
becomes 20. -/
theorem setOffset_clamps_witness :
    (∀ coerce, Reachable coerce World.showingFull) ∧
    (∀ coerce, (setOffset coerce World.showingFull 25).map (fun w => w.ui.yearsAhead)
      = some 20) ∧
    (∀ coerce, ∃ w1, setOffset coerce World.showingFull 25 = some w1 ∧
      0 ≤ w1.ui.yearsAhead ∧ w1.ui.yearsAhead ≤ 20 ∧
      ((0 : Int) ≤ 25 ∧ (25 : Int) ≤ 20 → w1.ui.yearsAhead = 25) ∧
      ((25 : Int) < 0 → w1.ui.yearsAhead = 0) ∧
      ((20 : Int) < 25 → w1.ui.yearsAhead = 20)) :=
  ⟨reachable_showingFull, fun _ => rfl, fun coerce =>
    setOffset_clamps coerce World.showingFull 25 (reachable_showingFull coerce)⟩

/-! ## C8: bodies that are not projections -/

/-- C8, as stated, fails: an error object is no projection, yet `runSimulation`
hands it to `setSimulationData` (the cell held the empty array) and does not
run its `catch` block. -/
theorem malformed_body_is_cached :
    (∀ pts, errorBody ≠ projection pts) ∧
    State.initial.simulationData = .arr [] ∧
    (∀ coerce, runSimulationResume coerce State.initial (.json errorBody)
      = ({ State.initial with simulationData := errorBody }, [])) :=
  ⟨fun pts => by simp [errorBody, projection], rfl, fun _ => rfl⟩

/-- C8, amended: a body that does not parse is handled as a failure (the `catch`
block runs, no state cell is changed).  For every body that parses,
`runSimulation` hands the parsed value to `setSimulationData` whatever its
shape; the `catch` block runs afterwards at most once, when line 33 throws on
the value, as it does for `[null]`, and the value has been handed over all the
same. -/
theorem unparsable_body_is_failure (coerce : JSVal → Option Bool) (s : State)
    (data : JSVal) :
    runSimulationResume coerce s .jsonRejected = (s, [offlineMessage]) ∧
    (runSimulationResume coerce s (.json data)).1.simulationData = data ∧
    ((runSimulationResume coerce s (.json data)).2 = [] ∨
      (runSimulationResume coerce s (.json data)).2 = [offlineMessage]) ∧
    runSimulationResume coerce s (.json (.arr [.null]))
      = ({ s with simulationData := .arr [.null] }, [offlineMessage]) := by
  refine ⟨rfl, (runSimulationResume_json_frame coerce s data).1, ?_, ?_⟩
  · simp only [runSimulationResume]
    repeat' split
    all_goals simp
  · simp [runSimulationResume, JSVal.getMember, JSVal.gtZero, JSVal.getIndex]

/-! ## Responses that are projections -/

theorem runSimulationResume_projection_nil (coerce : JSVal → Option Bool) (s : State) :
    runSimulationResume coerce s (.json (projection [])) =
      ({ s with simulationData := projection [] }, []) := by
  simp [runSimulationResume, projection, JSVal.getMember, JSVal.gtZero]

theorem runSimulationResume_projection_cons (coerce : JSVal → Option Bool) (s : State)
    (p : ProjectionPoint) (ps : List ProjectionPoint) :
    runSimulationResume coerce s (.json (projection (p :: ps))) =
      ({ s with simulationData := projection (p :: ps), currentRisk := .num p.probability },
        []) := by
  have hpos : (0 : ℚ) < (ps.length : ℚ) + 1 := by positivity
  simp [runSimulationResume, projection, JSVal.getMember, JSVal.gtZero, JSVal.getIndex,
    ProjectionPoint.toJS, JSVal.lookup, List.lookup, hpos]

/-- The risk `runSimulation` sets from a projection (line 33): the probability of
its first point, or nothing for an empty projection. -/
theorem onResponse_projection_invalid (coerce : JSVal → Option Bool) (s : State)
    (pts : List ProjectionPoint)
    (hy : s.yearsAhead < 0 ∨ (pts.length : Int) ≤ s.yearsAhead) :
    onResponse coerce s (.json (projection pts)) =
      some ({ s with
        simulationData := projection pts
        currentRisk := (pts.head?.map (fun p => JSVal.num p.probability)).getD s.currentRisk },
        []) := by
  cases pts with
  | nil =>
    simp only [onResponse, runSimulationResume_projection_nil]
    rw [deriveRiskEffect_invalid { s with simulationData := projection [] } [] rfl hy]
    rfl
  | cons p ps =>
    simp only [onResponse, runSimulationResume_projection_cons]
    rw [deriveRiskEffect_invalid
      { s with simulationData := projection (p :: ps), currentRisk := .num p.probability }
      (p :: ps) rfl hy]
    rfl

/-! ## C4: derivation at a valid index -/

/-- C4: in every state the component can be in whose cached projection has 21
points, setting the scrub offset to any `k` with `0 ≤ k ≤ 20` succeeds, leaves
the cache alone, and afterwards `currentRisk` is exactly the probability of the
`k`-th point. -/
theorem derivation_at_valid_index (coerce : JSVal → Option Bool) (w : World)
    (pts : List ProjectionPoint) (k : Int) (hw : Reachable coerce w)
    (hc : w.ui.simulationData = projection pts) (hlen : pts.length = 21)
    (h0 : 0 ≤ k) (h20 : k ≤ 20) :
    ∃ w1 p, step coerce w (.scrub k) = some w1 ∧ w1.ui.yearsAhead = k ∧
      w1.ui.simulationData = projection pts ∧ pts[k.toNat]? = some p ∧
      w1.ui.currentRisk = .num p.probability := by
  have hlt : k.toNat < pts.length := by omega
  have hp : pts[k.toNat]? = some (pts[k.toNat]) := List.getElem?_eq_getElem hlt
  by_cases hk : k = w.ui.yearsAhead
  · obtain ⟨hs, -⟩ := reachable_invariant coerce w hw
    subst hk
    have hd := deriveRiskEffect_valid w.ui pts _ hc h0 hp
    unfold Settled at hs
    rw [hs] at hd
    refine ⟨w, pts[w.ui.yearsAhead.toNat], ?_, rfl, hc, hp, ?_⟩
    · simp [step, onYearsAheadChange]
    · have := congrArg State.currentRisk (Option.some.inj hd)
      simpa using this
  · have hd := deriveRiskEffect_valid { w.ui with yearsAhead := k } pts _ hc h0 hp
    refine ⟨{ w with ui := { w.ui with
        yearsAhead := k
        currentRisk := .num (pts[k.toNat]).probability } }, pts[k.toNat], ?_, rfl, hc, hp, rfl⟩
    simp [step, onYearsAheadChange, hk, hd]

/-- C4 at the component showing the 21-point sample projection and `k = 7`. -/
theorem derivation_at_valid_index_witness :
    (∀ coerce, Reachable coerce World.showingFull) ∧
    World.showingFull.ui.simulationData = projection fullAnswer ∧
    fullAnswer.length = 21 ∧
    (∀ coerce, ∃ w1 p, step coerce World.showingFull (.scrub 7) = some w1 ∧
      w1.ui.yearsAhead = 7 ∧ w1.ui.simulationData = projection fullAnswer ∧
      fullAnswer[(7 : Int).toNat]? = some p ∧ w1.ui.currentRisk = .num p.probability) :=
  ⟨reachable_showingFull, rfl, rfl, fun coerce =>
    derivation_at_valid_index coerce World.showingFull fullAnswer 7
      (reachable_showingFull coerce) rfl rfl (by decide) (by decide)⟩

/-! ## C5: offsets that index nothing -/

/-- C5, as stated, fails: with the scrub offset at 5 and the risk 0 on display, a
3-point projection arrives; offset 5 is no valid index into it, yet the risk on
display becomes 0.1, the probability of the first point, not the 0 shown before. -/
theorem short_projection_resets_risk :
    (∀ coerce, (run coerce World.initial [.scrub 5, .wait 500]).map World.display
      = some (.arr [], 5, .num 0)) ∧
    (∀ coerce, (run coerce World.initial
        [.scrub 5, .wait 500, .response 0 (.json (projection shortAnswer))]).map World.display
      = some (projection shortAnswer, 5, .num 0.1)) ∧
    (projection shortAnswer).getIndex 5 = some .undefined ∧
    JSVal.num 0.1 ≠ JSVal.num 0 :=
  ⟨fun _ => rfl, fun _ => rfl, rfl, by norm_num⟩

theorem scrub_invalid_keeps_risk (coerce : JSVal → Option Bool) (w : World)
    (pts : List ProjectionPoint) (k : Int) (hc : w.ui.simulationData = projection pts)
    (hk : k < 0 ∨ (pts.length : Int) ≤ k) :
    ∃ w1, step coerce w (.scrub k) = some w1 ∧ w1.ui.yearsAhead = k ∧
      w1.ui.simulationData = projection pts ∧ w1.ui.currentRisk = w.ui.currentRisk := by
  by_cases hk2 : k = w.ui.yearsAhead
  · exact ⟨w, by simp [step, onYearsAheadChange, hk2], hk2.symm, hc, rfl⟩
  · have hd := deriveRiskEffect_invalid { w.ui with yearsAhead := k } pts hc hk
    exact ⟨{ w with ui := { w.ui with yearsAhead := k } },
      by simp [step, onYearsAheadChange, hk2, hd], rfl, hc, rfl⟩

theorem answer_invalid_sets_first (coerce : JSVal → Option Bool) (w : World)
    (new : List ProjectionPoint) (id : Nat) (hid : InFlight w id)
    (hy : w.ui.yearsAhead < 0 ∨ (new.length : Int) ≤ w.ui.yearsAhead) :
    ∃ w1, step coerce w (.response id (.json (projection new))) = some w1 ∧
      w1.ui.yearsAhead = w.ui.yearsAhead ∧ w1.ui.simulationData = projection new ∧
      w1.ui.currentRisk =
        (new.head?.map (fun p => JSVal.num p.probability)).getD w.ui.currentRisk := by
  unfold InFlight at hid
  have ho := onResponse_projection_invalid coerce w.ui new hy
  refine ⟨{ w with
    ui := { w.ui with
      simulationData := projection new
      currentRisk := (new.head?.map (fun p => JSVal.num p.probability)).getD w.ui.currentRisk }
    inFlight := w.inFlight.filter (fun q => q.id ≠ id)
    console := w.console ++ [] }, ?_, rfl, rfl, rfl⟩
  simp only [step, hid, if_true, ho, Option.map_some']

/-- C5, amended.  In every state, moving the scrub offset to a `k` that is no
valid index into the cached projection `pts` (the empty cache included) keeps
the risk that was on display.  In every state, a projection `new` that answers a
request in flight while the scrub offset is no valid index into it replaces the
cache; the risk on display is kept when `new` is empty and becomes the
probability of the first point of `new` otherwise. -/
theorem fallback_on_invalid_index (coerce : JSVal → Option Bool) (w : World) :
    (∀ (pts : List ProjectionPoint) (k : Int),
      w.ui.simulationData = projection pts → (k < 0 ∨ (pts.length : Int) ≤ k) →
      ∃ w1, step coerce w (.scrub k) = some w1 ∧ w1.ui.yearsAhead = k ∧
        w1.ui.simulationData = projection pts ∧ w1.ui.currentRisk = w.ui.currentRisk) ∧
    (∀ (new : List ProjectionPoint) (id : Nat),
      InFlight w id → (w.ui.yearsAhead < 0 ∨ (new.length : Int) ≤ w.ui.yearsAhead) →
      ∃ w1, step coerce w (.response id (.json (projection new))) = some w1 ∧
        w1.ui.yearsAhead = w.ui.yearsAhead ∧ w1.ui.simulationData = projection new ∧
        w1.ui.currentRisk =
          (new.head?.map (fun p => JSVal.num p.probability)).getD w.ui.currentRisk) :=
  ⟨fun pts k hc hk => scrub_invalid_keeps_risk coerce w pts k hc hk,
    fun new id hid hy => answer_invalid_sets_first coerce w new id hid hy⟩

/-- C5, amended, at three states: just after mounting, with nothing in flight,
the offset moves to 7 over the empty cache; with the 3-point projection cached
and nothing in flight, the offset moves from 2 to 5; with the offset at 5 and
the first request in flight, the 3-point projection arrives. -/
theorem fallback_on_invalid_index_witness :
    (∀ coerce, ∃ w1, step coerce World.initial (.scrub 7) = some w1 ∧
      w1.ui.yearsAhead = 7 ∧ w1.ui.simulationData = projection [] ∧
      w1.ui.currentRisk = .num 0) ∧
    (∀ coerce, run coerce World.initial
        [.wait 500, .response 0 (.json (projection shortAnswer)), .scrub 2]
      = some World.showingShort) ∧
    World.showingShort.inFlight = [] ∧
    (∀ coerce, ∃ w1, step coerce World.showingShort (.scrub 5) = some w1 ∧
      w1.ui.yearsAhead = 5 ∧ w1.ui.simulationData = projection shortAnswer ∧
      w1.ui.currentRisk = .num 0.3) ∧
    (∀ coerce, run coerce World.initial [.scrub 5, .wait 500]
      = some { World.awaiting with ui := { State.initial with yearsAhead := 5 } }) ∧
    (∀ coerce, ∃ w1,
      step coerce { World.awaiting with ui := { State.initial with yearsAhead := 5 } }
        (.response 0 (.json (projection shortAnswer))) = some w1 ∧
      w1.ui.yearsAhead = 5 ∧ w1.ui.simulationData = projection shortAnswer ∧
      w1.ui.currentRisk = .num 0.1) :=
  ⟨fun coerce => (fallback_on_invalid_index coerce World.initial).1 [] 7 rfl (by decide),
    fun _ => rfl, rfl,
    fun coerce =>
      (fallback_on_invalid_index coerce World.showingShort).1 shortAnswer 5 rfl (by decide),
    fun _ => rfl,
    fun coerce =>
      (fallback_on_invalid_index coerce
        { World.awaiting with ui := { State.initial with yearsAhead := 5 } }).2
        shortAnswer 0 rfl (by decide)⟩

/-! ## C9: is the displayed risk a function of cache and offset? -/

/-- C9, as stated, fails: two histories end with the same 3-point cache and the
same scrub offset 5, one showing the risk 0.1 (the projection arrived while the
offset was 5), the other 0.3 (the offset went to 2 and then to 5 after the
projection had arrived). -/
theorem displayed_risk_depends_on_history :
    (∀ coerce, (run coerce World.initial
        [.scrub 5, .wait 500, .response 0 (.json (projection shortAnswer))]).map World.display
      = some (projection shortAnswer, 5, .num 0.1)) ∧
    (∀ coerce, (run coerce World.initial
        [.wait 500, .response 0 (.json (projection shortAnswer)), .scrub 2, .scrub 5]).map
        World.display
      = some (projection shortAnswer, 5, .num 0.3)) ∧
    JSVal.num 0.1 ≠ JSVal.num 0.3 :=
  ⟨fun _ => rfl, fun _ => rfl, by norm_num⟩

/-- C9, amended: two states the component can be in that hold the same cached
projection and the same scrub offset, the offset being a valid index into the
projection, display the same risk, namely the probability of the point at that
offset. -/
theorem displayed_risk_at_valid_index (coerce : JSVal → Option Bool) (w1 w2 : World)
    (pts : List ProjectionPoint) (p : ProjectionPoint)
    (h1 : Reachable coerce w1) (h2 : Reachable coerce w2)
    (hc1 : w1.ui.simulationData = projection pts)
    (hc2 : w2.ui.simulationData = w1.ui.simulationData)
    (hy : w2.ui.yearsAhead = w1.ui.yearsAhead)
    (h0 : 0 ≤ w1.ui.yearsAhead) (hp : pts[w1.ui.yearsAhead.toNat]? = some p) :
    w1.ui.currentRisk = w2.ui.currentRisk ∧ w1.ui.currentRisk = .num p.probability := by
  have key : ∀ w : World, Reachable coerce w → w.ui.simulationData = projection pts →
      w.ui.yearsAhead = w1.ui.yearsAhead → w.ui.currentRisk = .num p.probability := by
    intro w hw hc hk
    obtain ⟨hs, -⟩ := reachable_invariant coerce w hw
    have hd := deriveRiskEffect_valid w.ui pts p hc (hk ▸ h0) (hk ▸ hp)
    unfold Settled at hs
    rw [hs] at hd
    have := congrArg State.currentRisk (Option.some.inj hd)
    simpa using this
  rw [key w1 h1 hc1 rfl, key w2 h2 (hc2.trans hc1) hy]
  exact ⟨rfl, rfl⟩

/-- C9, amended, at two histories that end with the 21-point sample projection
cached and the scrub offset at 7: the offset moved after the projection had
arrived, and the projection arrived after the offset had moved. -/
theorem displayed_risk_at_valid_index_witness :
    (∀ coerce, run coerce World.initial
        [.wait 500, .response 0 (.json (projection fullAnswer)), .scrub 7]
      = some World.scrubbedFull) ∧
    (∀ coerce, run coerce World.initial
        [.scrub 7, .wait 600, .response 0 (.json (projection fullAnswer))]
      = some World.scrubbedFullLater) ∧
    World.scrubbedFull.ui.currentRisk = World.scrubbedFullLater.ui.currentRisk ∧
    World.scrubbedFull.ui.currentRisk = .num (((7 : ℕ) : ℚ) / 40) :=
  ⟨fun _ => rfl, fun _ => rfl,
    displayed_risk_at_valid_index (fun _ => none) World.scrubbedFull World.scrubbedFullLater
      fullAnswer ⟨45 + (7 : ℕ), ((7 : ℕ) : ℚ) / 40⟩
      ⟨[.wait 500, .response 0 (.json (projection fullAnswer)), .scrub 7], rfl⟩
      ⟨[.scrub 7, .wait 600, .response 0 (.json (projection fullAnswer))], rfl⟩
      rfl rfl rfl (by decide) rfl⟩

/-! ## C1: two requests in flight -/

theorem run_supersedingEvents (coerce : JSVal → Option Bool) :
    run coerce World.initial supersedingEvents = some World.bothInFlight :=
  rfl

theorem inFlight_after_other (w w1 : World) (a b : Nat) (hb : InFlight w b) (hab : a ≠ b)
    (h : w1.inFlight = w.inFlight.filter (fun q => q.id ≠ a)) : InFlight w1 b := by
  unfold InFlight at *
  rw [h]
  simp only [List.any_eq_true, decide_eq_true_eq, List.mem_filter] at hb ⊢
  obtain ⟨q, hq, hqb⟩ := hb
  exact ⟨q, ⟨hq, by simpa [hqb] using Ne.symm hab⟩, hqb⟩

theorem run_two_responses (coerce : JSVal → Option Bool) (w : World) (a b : Nat)
    (first second : List ProjectionPoint) (ha : InFlight w a) (hb : InFlight w b)
    (hab : a ≠ b) :
    ∃ w2, run coerce w [.response a (.json (projection first)),
        .response b (.json (projection second))] = some w2 ∧
      w2.ui.simulationData = projection second := by
  obtain ⟨w1, hw1, -, -, hf⟩ := step_response_json coerce w a (projection first) ha
    (projection_ne_nullish first).1 (projection_ne_nullish first).2
  have hb1 : InFlight w1 b := inFlight_after_other w w1 a b hb hab hf
  obtain ⟨w2, hw2, hc, -, -⟩ := step_response_json coerce w1 b (projection second) hb1
    (projection_ne_nullish second).1 (projection_ne_nullish second).2
  exact ⟨w2, by simp [run, hw1, hw2], hc⟩

/-- C1, as stated, fails: the request for `P1` (id 0) and then the request for
`P2` (id 1) are sent; the answer to the second is handled first, the answer to
the first afterwards; the cache ends as the answer to the first request, which
differs from the answer to the second. -/
theorem stale_response_overwrites_cache :
    (∀ coerce, (run coerce World.initial supersedingEvents).map World.sent
      = some [paramsP1, paramsP2]) ∧
    (∀ coerce, (run coerce World.initial (supersedingEvents ++
        [.response 1 (.json (projection secondAnswer)),
         .response 0 (.json (projection firstAnswer))])).map
        (fun w => w.ui.simulationData) = some (projection firstAnswer)) ∧
    projection firstAnswer ≠ projection secondAnswer :=
  ⟨fun _ => rfl, fun _ => rfl, by simp [projection, firstAnswer, secondAnswer,
    ProjectionPoint.toJS]⟩

/-- C1, amended: with requests `a` and `b` both in flight and both answered by a
projection, the cache after both answers have been handled is the answer that
was handled last: the answer to `b` when it is handled after the answer to `a`,
the answer to `a` when that one is handled after the answer to `b`. -/
theorem last_handled_response_wins (coerce : JSVal → Option Bool) (w : World) (a b : Nat)
    (answerA answerB : List ProjectionPoint) (ha : InFlight w a) (hb : InFlight w b)
    (hab : a ≠ b) :
    (∃ w2, run coerce w [.response a (.json (projection answerA)),
        .response b (.json (projection answerB))] = some w2 ∧
      w2.ui.simulationData = projection answerB) ∧
    (∃ w2, run coerce w [.response b (.json (projection answerB)),
        .response a (.json (projection answerA))] = some w2 ∧
      w2.ui.simulationData = projection answerA) :=
  ⟨run_two_responses coerce w a b answerA answerB ha hb hab,
    run_two_responses coerce w b a answerB answerA hb ha (Ne.symm hab)⟩

/-- C1, amended, at the superseding scenario: requests 0 and 1 in flight, answered
by the two sample projections. -/
theorem last_handled_response_wins_witness :
    InFlight World.bothInFlight 0 ∧ InFlight World.bothInFlight 1 ∧
    (∀ coerce,
      (∃ w2, run coerce World.bothInFlight [.response 0 (.json (projection firstAnswer)),
          .response 1 (.json (projection secondAnswer))] = some w2 ∧
        w2.ui.simulationData = projection secondAnswer) ∧
      (∃ w2, run coerce World.bothInFlight [.response 1 (.json (projection secondAnswer)),
          .response 0 (.json (projection firstAnswer))] = some w2 ∧
        w2.ui.simulationData = projection firstAnswer)) :=
  ⟨rfl, rfl, fun coerce =>
    last_handled_response_wins coerce World.bothInFlight 0 1 firstAnswer secondAnswer
      rfl rfl (by decide)⟩

/-! ## C2: debounce -/

theorem step_edit_armed (coerce : JSVal → Option Bool) (w : World) (e : Edit)
    (hw : TimersOwned w) :
    ∃ w1, step coerce w (.edit e) = some w1 ∧ Armed w1 (e.apply w.ui.formData) ∧
      w1.sent = w.sent := by
  have hnil : w.timers.filter (fun t => decide (t.id ≠ w.effectTimer)) = [] := by
    rw [List.filter_eq_nil_iff]
    intro t ht
    simp [hw.2 t ht]
  refine ⟨_, rfl, ⟨rfl, ?_⟩, rfl⟩
  simp only [debounceEffect]
  rw [hnil]
  rfl

theorem step_wait_armed_short (coerce : JSVal → Option Bool) (w : World) (f : ParameterSet)
    (g : Nat) (ha : Armed w f) (hg : g < debounceDelay) :
    ∃ w1, step coerce w (.wait g) = some w1 ∧ TimersOwned w1 ∧
      w1.ui.formData = f ∧ w1.sent = w.sent := by
  obtain ⟨hf, ht⟩ := ha
  have hdue : ¬ (w.now + debounceDelay ≤ w.now + g) := by omega
  refine ⟨{ w with now := w.now + g }, ?_, ?_, hf, rfl⟩
  · simp only [step, ht, List.filter, hdue, decide_False, decide_True, decide_not,
      Bool.not_false, List.foldl_nil]
  · simp [TimersOwned, ht]

theorem step_wait_armed_long (coerce : JSVal → Option Bool) (w : World) (f : ParameterSet)
    (quiet : Nat) (ha : Armed w f) (hq : debounceDelay ≤ quiet) :
    ∃ w1, step coerce w (.wait quiet) = some w1 ∧ w1.timers = [] ∧
      w1.sent = w.sent ++ [f] := by
  obtain ⟨-, ht⟩ := ha
  have hdue : w.now + debounceDelay ≤ w.now + quiet := by omega
  refine ⟨fire { w with now := w.now + quiet, timers := [] }
    { id := w.effectTimer, due := w.now + debounceDelay, body := f }, ?_, rfl, rfl⟩
  simp only [step, ht, List.filter, hdue, decide_True, decide_not, Bool.not_true,
    List.foldl_cons, List.foldl_nil]

theorem run_gaps_armed (coerce : JSVal → Option Bool) (rest : List (Nat × Edit)) (w : World)
    (f : ParameterSet) (ha : Armed w f) (hgap : ∀ ge ∈ rest, ge.1 < debounceDelay) :
    ∃ w1, run coerce w (rest.flatMap (fun ge => [.wait ge.1, .edit ge.2])) = some w1 ∧
      Armed w1 ((rest.map Prod.snd).foldl Edit.apply f) ∧ w1.sent = w.sent := by
  induction rest generalizing w f with
  | nil => exact ⟨w, rfl, ha, rfl⟩
  | cons ge rest ih =>
    obtain ⟨wa, hwa, hown, hfa, hsa⟩ :=
      step_wait_armed_short coerce w f ge.1 ha (hgap ge (List.mem_cons_self _ _))
    obtain ⟨wb, hwb, harm, hsb⟩ := step_edit_armed coerce wa ge.2 hown
    rw [hfa] at harm
    obtain ⟨w1, hw1, harm1, hs1⟩ := ih wb (ge.2.apply f) harm
      (fun x hx => hgap x (List.mem_cons_of_mem _ hx))
    refine ⟨w1, ?_, harm1, by rw [hs1, hsb, hsa]⟩
    rw [List.flatMap_cons]
    simp only [List.cons_append, List.nil_append, run, hwa, hwb, Option.some_bind]
    exact hw1

/-- C2: from any state the component can be in, a burst of edits in which each
edit follows the previous one by less than 500 ms sends no request while it
lasts and leaves exactly one timer pending, the one of the last edit (each edit
cleared the timer of the one before); once 500 ms or more have then passed,
exactly one request has been sent, its body is the final parameter set, and no
timer is pending. -/
theorem debounce_coalesces (coerce : JSVal → Option Bool) (w : World) (e : Edit)
    (rest : List (Nat × Edit)) (quiet : Nat) (hw : Reachable coerce w)
    (hgap : ∀ ge ∈ rest, ge.1 < 500) (hq : 500 ≤ quiet) :
    ∃ w1 w2, run coerce w (burst e rest) = some w1 ∧
      w1.ui.formData = burstResult w.ui.formData e rest ∧
      w1.sent = w.sent ∧
      w1.timers = [{ id := w1.effectTimer, due := w1.now + 500,
                     body := burstResult w.ui.formData e rest }] ∧
      run coerce w (burst e rest ++ [.wait quiet]) = some w2 ∧
      w2.sent = w.sent ++ [burstResult w.ui.formData e rest] ∧
      w2.timers = [] := by
  obtain ⟨-, hown⟩ := reachable_invariant coerce w hw
  obtain ⟨wa, hwa, harm, hsa⟩ := step_edit_armed coerce w e hown
  obtain ⟨w1, hw1, harm1, hs1⟩ := run_gaps_armed coerce rest wa _ harm hgap
  obtain ⟨w2, hw2, ht2, hs2⟩ := step_wait_armed_long coerce w1 _ quiet harm1 hq
  have hrun : run coerce w (burst e rest) = some w1 := by
    simp only [burst, run, hwa, Option.some_bind]
    exact hw1
  refine ⟨w1, w2, hrun, harm1.1, by rw [hs1, hsa], harm1.2, ?_, ?_, ht2⟩
  · rw [run_append, hrun]
    simp [run, hw2]
  · rw [hs2, hs1, hsa]
    rfl

/-- C2 at the scenario of the specification: just after mounting the user sets
the age to 50 and, 100 ms later, to 55; 500 ms later exactly one request has
been sent, with age 55. -/
theorem debounce_coalesces_witness :
    (∀ coerce, Reachable coerce World.initial) ∧
    (∀ ge ∈ [((100 : Nat), Edit.change ⟨"age", 55⟩)], ge.1 < 500) ∧
    (∀ coerce, ∃ w1 w2,
      run coerce World.initial
        (burst (.change ⟨"age", 50⟩) [(100, .change ⟨"age", 55⟩)]) = some w1 ∧
      w1.ui.formData = paramsP2 ∧
      w1.sent = [] ∧
      w1.timers = [{ id := w1.effectTimer, due := w1.now + 500, body := paramsP2 }] ∧
      run coerce World.initial
        (burst (.change ⟨"age", 50⟩) [(100, .change ⟨"age", 55⟩)] ++ [.wait 500]) = some w2 ∧
      w2.sent = [] ++ [paramsP2] ∧
      w2.timers = []) :=
  ⟨fun _ => ⟨[], rfl⟩, by simp, fun coerce =>
    debounce_coalesces coerce World.initial (.change ⟨"age", 50⟩)
      [(100, .change ⟨"age", 55⟩)] 500 ⟨[], rfl⟩ (by simp) (le_refl _)⟩

end MyoSim
